import Mathlib

/-!
Verification of the Room Query & Remote-Action Gateway of the colyseus-monitor
repository (backend source: the `getAPI` router, its helpers `applyRoomFilters`,
`applySorting`, `handleError`, and the option records of the backend index file).

The JavaScript runtime values that flow through the gateway are modelled by
`JSVal` below.  Numbers are modelled as `Int` (the room counts and timestamps
the gateway manipulates are integers); the special number `NaN` gets its own
constructor because its propagation through comparisons matters to the sort
comparator.  Objects are finite association lists in insertion order, which is
the enumeration order JavaScript guarantees for string keys.  Object identity
(reference equality) is not representable on a value model, so `===` on two
object values is modelled as `false` — the gateway only ever applies `===` to
primitives, so no modelled code path depends on this choice.
-/

mutual
inductive JSVal where
  | undefined
  | null
  | nan
  | bool (b : Bool)
  | num (n : Int)
  | str (s : String)
  | arr (elems : JSList)
  | obj (fields : JSFields)
deriving DecidableEq
inductive JSList where
  | nil
  | cons (head : JSVal) (tail : JSList)
deriving DecidableEq
inductive JSFields where
  | nil
  | cons (key : String) (val : JSVal) (tail : JSFields)
deriving DecidableEq
end

/-- First binding of a key in an object's field list (JS objects cannot hold a
key twice, so the first binding is the binding). -/
def JSFields.lookup : JSFields → String → Option JSVal
  | .nil, _ => none
  | .cons k v tl, key => if k = key then some v else JSFields.lookup tl key

/-- Property read `o[key]`: on an object, the bound value or `undefined`;
on any non-object (including `null`/`undefined` when not guarded by `?.`),
the gateway only reads data properties, modelled as `undefined`. -/
def jsGet (v : JSVal) (key : String) : JSVal :=
  match v with
  | .obj fs => (fs.lookup key).getD .undefined
  | _ => .undefined

/-- Optional-chained property read `o?.[key]` as used by the sort-path
traversal: `undefined`/`null` short-circuit to `undefined`. -/
def optChainGet (v : JSVal) (key : String) : JSVal :=
  match v with
  | .undefined => .undefined
  | .null => .undefined
  | v => jsGet v key

/-- JS truthiness. -/
def jsTruthy : JSVal → Bool
  | .undefined => false
  | .null => false
  | .nan => false
  | .bool b => b
  | .num n => decide (n ≠ 0)
  | .str s => decide (s ≠ "")
  | .arr _ => true
  | .obj _ => true

/-- Value of an all-digit character sequence, `none` when empty or when a
non-digit appears. -/
def decDigitsVal (cs : List Char) : Option Nat :=
  match cs with
  | [] => none
  | _ =>
    cs.foldl
      (fun acc c =>
        match acc with
        | none => none
        | some n => if c.isDigit then some (n * 10 + (c.toNat - 48)) else none)
      (some 0)

/-- Optionally-signed decimal integer literal. -/
def parseDecInt : List Char → Option Int
  | '-' :: rest => (decDigitsVal rest).map (fun n => -(n : Int))
  | '+' :: rest => (decDigitsVal rest).map (fun n => (n : Int))
  | cs => (decDigitsVal cs).map (fun n => (n : Int))

/-- Leading and trailing whitespace stripped. -/
def trimChars (cs : List Char) : List Char :=
  ((cs.dropWhile Char.isWhitespace).reverse.dropWhile Char.isWhitespace).reverse

/-- JS `ToNumber`, with `none` standing for `NaN`.  Strings are parsed as
optionally-signed decimal integers (the only numeric strings the gateway's
data can contain); an empty or all-whitespace string converts to `0`.
Object/array operands coerce through `ToPrimitive`, which for the gateway's
data never yields a numeric string: modelled as `NaN`. -/
def toNumber : JSVal → Option Int
  | .undefined => none
  | .null => some 0
  | .nan => none
  | .bool b => some (if b then 1 else 0)
  | .num n => some n
  | .str s =>
    if s.data.all Char.isWhitespace then some 0 else parseDecInt (trimChars s.data)
  | .arr _ => none
  | .obj _ => none

/-- JS abstract relational comparison `a < b`: lexicographic when both sides
are strings, numeric otherwise; any comparison involving `NaN` is `false`. -/
def jsLt (a b : JSVal) : Bool :=
  match a, b with
  | .str x, .str y => decide (x < y)
  | a, b =>
    match toNumber a, toNumber b with
    | some x, some y => decide (x < y)
    | _, _ => false

/-- JS strict equality `===` on the values the gateway compares: primitives
compare structurally, `NaN` is equal to nothing (including itself), and
object/array operands compare by reference, modelled as `false`. -/
def jsStrictEq : JSVal → JSVal → Bool
  | .undefined, .undefined => true
  | .null, .null => true
  | .bool x, .bool y => x == y
  | .num x, .num y => x == y
  | .str x, .str y => x == y
  | _, _ => false

mutual
/-- JS string coercion as performed by the template literal in the room
formatter. -/
def jsToString : JSVal → String
  | .undefined => "undefined"
  | .null => "null"
  | .nan => "NaN"
  | .bool b => cond b "true" "false"
  | .num n => toString n
  | .str s => s
  | .arr xs => jsListToString xs
  | .obj _ => "[object Object]"
/-- `Array.prototype.toString` = `join(",")`; `null`/`undefined` elements
render as the empty string. -/
def jsListToString : JSList → String
  | .nil => ""
  | .cons .undefined .nil => ""
  | .cons .null .nil => ""
  | .cons v .nil => jsToString v
  | .cons .undefined tl => "," ++ jsListToString tl
  | .cons .null tl => "," ++ jsListToString tl
  | .cons v tl => jsToString v ++ "," ++ jsListToString tl
end

mutual
/-- `JSON.parse(JSON.stringify(room))` on an object value: object entries
bound to `undefined` are dropped, `NaN` serialises as `null`, array elements
that are `undefined` become `null`.  (The registry's room records are objects,
so the top level is always serialisable.) -/
def jsonRoundTrip : JSVal → JSVal
  | .nan => .null
  | .obj fs => .obj (jsonRoundTripFields fs)
  | .arr xs => .arr (jsonRoundTripList xs)
  | v => v
def jsonRoundTripFields : JSFields → JSFields
  | .nil => .nil
  | .cons _ .undefined tl => jsonRoundTripFields tl
  | .cons k v tl => .cons k (jsonRoundTrip v) (jsonRoundTripFields tl)
def jsonRoundTripList : JSList → JSList
  | .nil => .nil
  | .cons .undefined tl => .cons .null (jsonRoundTripList tl)
  | .cons v tl => .cons (jsonRoundTrip v) (jsonRoundTripList tl)
end

/-- Property write on an object's field list: an existing binding is updated
in place (JS preserves the key's insertion position), a new key is appended. -/
def JSFields.set : JSFields → String → JSVal → JSFields
  | .nil, k, v => .cons k v .nil
  | .cons k' v' tl, k, v =>
    if k' = k then .cons k v tl else .cons k' v' (JSFields.set tl k v)

/-- Property write `o[key] = v`; assignment to a non-object is a silent no-op
(non-strict mode). -/
def jsSet (o : JSVal) (key : String) (v : JSVal) : JSVal :=
  match o with
  | .obj fs => .obj (fs.set key v)
  | other => other

/-- JS addition, used by the `connections` accumulator: string concatenation
when either side is a string, numeric otherwise (object/array operands are
not produced by the modelled code paths). -/
def jsAdd (a b : JSVal) : JSVal :=
  match a, b with
  | .str x, y => .str (x ++ jsToString y)
  | x, .str y => .str (jsToString x ++ y)
  | x, y =>
    match toNumber x, toNumber y with
    | some m, some n => .num (m + n)
    | _, _ => .nan

/-- JS subtraction (`Date.now() - getTime()` in the room formatter). -/
def jsSub (a b : JSVal) : JSVal :=
  match toNumber a, toNumber b with
  | some x, some y => .num (x - y)
  | _, _ => .nan

/-- `new Date(room.createdAt).getTime()` for the numeric timestamps the
registry stores; non-numeric `createdAt` shapes are not modelled and give
`NaN`. -/
def dateGetTime : JSVal → JSVal
  | .num n => .num n
  | _ => .nan

/-! ## Option records consumed by the gateway

These mirror the backend `MonitorOptions` interfaces.  Every field is
optional in TypeScript, hence the `Option` wrappers; `opts.access?.flag`
is `Option.bind`. -/

structure FilterOptions where
  includeTypes : Option (List String) := none
  excludeTypes : Option (List String) := none
deriving DecidableEq

structure AccessControlOptions where
  allowStateInspection : Option Bool := none
  allowStateModification : Option Bool := none
  allowClientMessages : Option Bool := none
  allowRoomDisposal : Option Bool := none
deriving DecidableEq

structure CustomAction where
  id : String
  name : String
  description : Option String := none
  icon : Option String := none
  confirmRequired : Option Bool := none
  handler : String
deriving DecidableEq

structure ActionsOptions where
  room : Option (List CustomAction) := none
  client : Option (List CustomAction) := none
deriving DecidableEq

/-- The slice of `MonitorOptions` the API routes read (UI, auth, api and
realtime options do not enter any modelled code path). -/
structure MonitorOptions where
  access : Option AccessControlOptions := none
  filter : Option FilterOptions := none
  actions : Option ActionsOptions := none
deriving DecidableEq

/-! ## Filter / sort / paginate engine (`applyRoomFilters`, `applySorting`,
and the body of the `GET /` handler) -/

/-- `Array.prototype.includes` restricted to a string array, applied to a
room's `name` value (SameValueZero on a string element coincides with
`===`). -/
def includesStr (ts : List String) (v : JSVal) : Bool :=
  ts.any (fun t => jsStrictEq v (.str t))

/-- The `includeTypes` block of `applyRoomFilters` (skipped when the list is
absent or empty). -/
def filterInclude (rooms : List JSVal) (inc : Option (List String)) : List JSVal :=
  match inc with
  | some ts =>
    if 0 < ts.length then
      rooms.filter (fun room => includesStr ts (jsGet room "name"))
    else rooms
  | none => rooms

/-- The `excludeTypes` block of `applyRoomFilters` (skipped when the list is
absent or empty). -/
def filterExclude (rooms : List JSVal) (exc : Option (List String)) : List JSVal :=
  match exc with
  | some ts =>
    if 0 < ts.length then
      rooms.filter (fun room => !includesStr ts (jsGet room "name"))
    else rooms
  | none => rooms

/-- `applyRoomFilters`: include filter first, then exclude filter on its
result; a missing options object leaves the list untouched. -/
def applyRoomFilters (rooms : List JSVal) (filterOptions : Option FilterOptions) :
    List JSVal :=
  match filterOptions with
  | none => rooms
  | some fo => filterExclude (filterInclude rooms fo.includeTypes) fo.excludeTypes

/-- One entry of the ad-hoc query filter: the room's own field must match, or
(fallback) its truthy `metadata` object must carry the entry. -/
def matchesFilterEntry (room : JSVal) (k : String) (v : JSVal) : Bool :=
  jsStrictEq (jsGet room k) v ||
    (jsTruthy (jsGet room "metadata") &&
      jsStrictEq (jsGet (jsGet room "metadata") k) v)

/-- The ad-hoc `filter` query parameter of `GET /`: `none` covers both an
absent parameter and malformed filter JSON (which the handler logs and
ignores); a parsed object keeps rooms matching every entry. -/
def adhocFilter (rooms : List JSVal) (filterObj : Option (List (String × JSVal))) :
    List JSVal :=
  match filterObj with
  | none => rooms
  | some entries =>
    rooms.filter (fun room => entries.all (fun e => matchesFilterEntry room e.1 e.2))

/-- Dotted-path resolution: `for (const part of parts) aVal = aVal?.[part]`. -/
def resolvePath (v : JSVal) : List String → JSVal
  | [] => v
  | p :: ps => resolvePath (optChainGet v p) ps

/-- `String.prototype.split` with a one-character separator (the gateway
splits on `"."` and on `":"` only): an empty string yields `[""]`, exactly
as in JS. -/
def splitChars (sep : Char) : List Char → List (List Char)
  | [] => [[]]
  | c :: rest =>
    let r := splitChars sep rest
    if c = sep then [] :: r
    else
      match r with
      | [] => [[c]]
      | g :: gs => (c :: g) :: gs

def splitOnSep (sep : Char) (s : String) : List String :=
  (splitChars sep s.data).map String.mk

/-- `String.prototype.startsWith`. -/
def strStartsWith (s p : String) : Bool :=
  p.data.isPrefixOf s.data

/-- The first `n` characters removed (how the handler strips a recognised
method token's leading pattern). -/
def strDrop (s : String) (n : Nat) : String :=
  String.mk (s.data.drop n)

inductive SortOrder where
  | asc
  | desc
deriving DecidableEq

/-- The comparator closure passed to `Array.prototype.sort` by `applySorting`:
resolve the dotted path on both rooms, `0` on strict equality, otherwise
`-1`/`1` by the JS `<` comparison, negated as a whole when the order is
`desc`. -/
def roomCompare (sortKey : String) (order : SortOrder) (a b : JSVal) : Int :=
  let parts := splitOnSep '.' sortKey
  let aVal := resolvePath a parts
  let bVal := resolvePath b parts
  if jsStrictEq aVal bVal then 0
  else
    let result : Int := if jsLt aVal bVal then -1 else 1
    if order = SortOrder.desc then -result else result

/-- Stable insertion of one element: `x` is placed before the first element
it does not compare strictly greater than. -/
def jsInsert (cmp : α → α → Int) (x : α) : List α → List α
  | [] => [x]
  | y :: ys => if cmp x y ≤ 0 then x :: y :: ys else y :: jsInsert cmp x ys

/-- `Array.prototype.sort(cmp)` on a copy, modelled as a stable insertion
sort (the ECMAScript specification requires sort to be stable; stability is
the only property of the engine's algorithm the gateway can observe through
a consistent comparator). -/
def jsSort (cmp : α → α → Int) : List α → List α
  | [] => []
  | x :: xs => jsInsert cmp x (jsSort cmp xs)

/-- `applySorting`: no-op without a sort key (`!sort` also catches the empty
string), otherwise a stable sort of a copy of the list under `roomCompare`. -/
def applySorting (rooms : List JSVal) (sort : Option String) (order : SortOrder) :
    List JSVal :=
  match sort with
  | none => rooms
  | some s => if s = "" then rooms else jsSort (roomCompare s order) rooms

/-- `room.clients` read as the integer the registry stores (used only under
the hypothesis that every room carries a numeric `clients` field). -/
def clientsInt (room : JSVal) : Int :=
  match jsGet room "clients" with
  | .num n => n
  | _ => 0

/-- The formatter applied to each paginated room by the `GET /` handler:
JSON round-trip copy, then `locked`, `private`, the stringified
`maxClients` template literal, and `elapsedTime`. -/
def formatRoom (now : Int) (room : JSVal) : JSVal :=
  let data := jsonRoundTrip room
  let data :=
    jsSet data "locked"
      (if jsTruthy (jsGet room "locked") then jsGet room "locked" else .bool false)
  let data := jsSet data "private" (jsGet room "private")
  let data := jsSet data "maxClients" (.str (jsToString (jsGet room "maxClients")))
  jsSet data "elapsedTime" (jsSub (.num now) (dateGetTime (jsGet room "createdAt")))

/-- The JSON payload of `GET /` restricted to the fields the gateway computes
from the room list (`columns`, `cpu`, `memory` and the verbatim echo of the
configured actions/access options carry no room-list logic and are outside
the model). -/
structure IndexResponse where
  rooms : List JSVal
  total : Nat
  page : Nat
  limit : Nat
  pages : Nat
  connections : JSVal
deriving DecidableEq

/-- Body of the `GET /` handler after parameter marshalling: configured type
filter, ad-hoc query filter, sort, `slice((page-1)*limit, page*limit)`,
per-page `connections` accumulation and per-room formatting.  The router
derives `page` and `limit` through `parseInt(x) || default`, so both are at
least `1` on every request the router produces; `pages` mirrors
`Math.ceil(total / limit)` under that invariant. -/
def handleIndex (allRooms : List JSVal) (opts : MonitorOptions)
    (filterObj : Option (List (String × JSVal))) (sort : Option String)
    (order : SortOrder) (page limit : Nat) (now : Int) : IndexResponse :=
  let filteredRooms := adhocFilter (applyRoomFilters allRooms opts.filter) filterObj
  let sortedRooms := applySorting filteredRooms sort order
  let startIndex := (page - 1) * limit
  let endIndex := page * limit
  let paginatedRooms := (sortedRooms.drop startIndex).take (endIndex - startIndex)
  let connections :=
    paginatedRooms.foldl (fun acc room => jsAdd acc (jsGet room "clients")) (.num 0)
  { rooms := paginatedRooms.map (formatRoom now)
    total := filteredRooms.length
    page := page
    limit := limit
    pages := (filteredRooms.length + limit - 1) / limit
    connections := connections }

/-! ## Remote-action dispatch (`GET /room`, `GET /room/call`) -/

/-- A single request/response remote call handed to the registry
(`matchMaker.remoteRoomCall`); `args = none` is a call made without an
arguments parameter. -/
structure RemoteCall where
  roomId : String
  method : String
  args : Option JSVal
deriving DecidableEq

/-- The registry's remote-call transport (external collaborator): success
returns the room method's result, failure is whatever rejection the
transport produced (room disposed, method threw). -/
def RegistryFn : Type :=
  String → String → Option JSVal → Except Unit JSVal

structure HttpResponse where
  status : Nat
  body : JSVal
deriving DecidableEq

/-- `handleError`: set the status and send `{error: true, message}`. -/
def handleErrorResp (message : String) (status : Nat) : HttpResponse :=
  { status := status
    body := .obj (.cons "error" (.bool true) (.cons "message" (.str message) .nil)) }

def UNAVAILABLE_ROOM_ERROR : String :=
  "@colyseus/monitor: room $roomId is not available anymore."

/-- The 500 message template with `$roomId` substituted (the placeholder
occurs once, so replace-first and replace-all coincide). -/
def unavailableMessage (roomId : String) : String :=
  UNAVAILABLE_ROOM_ERROR.replace "$roomId" roomId

def listToJSList : List JSVal → JSList
  | [] => .nil
  | v :: tl => .cons v (listToJSList tl)

/-- The `{id, name, description, icon, confirmRequired}` projection of a
configured action as the room endpoints return it. -/
def actionSummary (a : CustomAction) : JSVal :=
  .obj (.cons "id" (.str a.id)
    (.cons "name" (.str a.name)
      (.cons "description" (match a.description with | some s => .str s | none => .undefined)
        (.cons "icon" (match a.icon with | some s => .str s | none => .undefined)
          (.cons "confirmRequired"
            (match a.confirmRequired with | some b => .bool b | none => .undefined) .nil)))))

/-- `GET /room`: inspection guard, then one `getInspectData` remote call,
then the configured action lists are attached to the payload; a failed call
is caught and answered with the 500 "not available anymore" message.  The
second component lists the remote calls the request performed. -/
def roomEndpoint (opts : MonitorOptions) (reg : RegistryFn) (roomId : String) :
    HttpResponse × List RemoteCall :=
  if opts.access.bind AccessControlOptions.allowStateInspection = some false then
    (handleErrorResp "State inspection is not allowed" 403, [])
  else
    match reg roomId "getInspectData" none with
    | .ok inspectData =>
      let d :=
        match opts.actions.bind ActionsOptions.room with
        | some acts => jsSet inspectData "actions" (.arr (listToJSList (acts.map actionSummary)))
        | none => inspectData
      let d :=
        match opts.actions.bind ActionsOptions.client with
        | some acts => jsSet d "clientActions" (.arr (listToJSList (acts.map actionSummary)))
        | none => d
      ({ status := 200, body := d }, [⟨roomId, "getInspectData", none⟩])
    | .error _ =>
      (handleErrorResp (unavailableMessage roomId) 500,
        [⟨roomId, "getInspectData", none⟩])

/-- `[clientId, ...args]`: spreading an array prepends, spreading a string
iterates its characters, spreading any other value throws a `TypeError`
(`none`), which the handler's try/catch converts to the 500 response. -/
def spreadPrepend (c : JSVal) : JSVal → Option JSVal
  | .arr xs => some (.arr (.cons c xs))
  | .str s => some (.arr (.cons c (strCharsToJSList s.toList)))
  | _ => none
where strCharsToJSList : List Char → JSList
  | [] => .nil
  | ch :: tl => .cons (.str (String.singleton ch)) (strCharsToJSList tl)

/-- The try-block of the `GET /room/call` handler, after the `args`
parameter has been parsed: built-in guards, custom room/client action
resolution (`method.replace(p, "")` with `method.startsWith(p)` is dropping
the leading characters of `p`), and the bare registry call; every failure of
a performed remote call is caught and answered with the 500 "not available
anymore" message.  The second component lists the remote calls the request
performed. -/
def roomCallTry (opts : MonitorOptions) (reg : RegistryFn)
    (roomId method : String) (args : JSVal) : HttpResponse × List RemoteCall :=
  if method = "disconnect" ∧
      opts.access.bind AccessControlOptions.allowRoomDisposal = some false then
    (handleErrorResp "Room disposal is not allowed" 403, [])
  else if method = "_sendMessageToClient" ∧
      opts.access.bind AccessControlOptions.allowClientMessages = some false then
    (handleErrorResp "Sending client messages is not allowed" 403, [])
  else if strStartsWith method "customAction:" then
    let actionId := strDrop method ("customAction:".length)
    match ((opts.actions.bind ActionsOptions.room).getD []).find?
        (fun a => a.id == actionId) with
    | some action =>
      if action.handler ≠ "" then
        match reg roomId action.handler (some args) with
        | .ok data => ({ status := 200, body := data }, [⟨roomId, action.handler, some args⟩])
        | .error _ =>
          (handleErrorResp (unavailableMessage roomId) 500,
            [⟨roomId, action.handler, some args⟩])
      else (handleErrorResp ("Custom action " ++ actionId ++ " not found") 404, [])
    | none => (handleErrorResp ("Custom action " ++ actionId ++ " not found") 404, [])
  else if strStartsWith method "customClientAction:" then
    let parts := splitOnSep ':' (strDrop method ("customClientAction:".length))
    let actionId := parts.headD ""
    let clientId : JSVal :=
      match parts.get? 1 with
      | some c => .str c
      | none => .undefined
    match ((opts.actions.bind ActionsOptions.client).getD []).find?
        (fun a => a.id == actionId) with
    | some action =>
      if action.handler ≠ "" then
        match spreadPrepend clientId args with
        | some callArgs =>
          match reg roomId action.handler (some callArgs) with
          | .ok data =>
            ({ status := 200, body := data }, [⟨roomId, action.handler, some callArgs⟩])
          | .error _ =>
            (handleErrorResp (unavailableMessage roomId) 500,
              [⟨roomId, action.handler, some callArgs⟩])
        | none => (handleErrorResp (unavailableMessage roomId) 500, [])
      else (handleErrorResp ("Custom client action " ++ actionId ++ " not found") 404, [])
    | none => (handleErrorResp ("Custom client action " ++ actionId ++ " not found") 404, [])
  else
    match reg roomId method (some args) with
    | .ok data => ({ status := 200, body := data }, [⟨roomId, method, some args⟩])
    | .error _ =>
      (handleErrorResp (unavailableMessage roomId) 500, [⟨roomId, method, some args⟩])

/-- The whole `GET /room/call` handler.  The statement
`const args = JSON.parse((req.query.args as string) || "[]")` runs before
the handler's try/catch block, so a parse failure rejects the async handler
with no response written (`none`); `parseJson` is the external `JSON.parse`,
`none` meaning a thrown `SyntaxError`. -/
def roomCallEndpoint (opts : MonitorOptions) (reg : RegistryFn)
    (parseJson : String → Option JSVal) (roomId method : String)
    (argsParam : Option String) : Option (HttpResponse × List RemoteCall) :=
  let argsStr :=
    match argsParam with
    | some s => if s = "" then "[]" else s
    | none => "[]"
  match parseJson argsStr with
  | none => none
  | some args => some (roomCallTry opts reg roomId method args)

/-- The integer behind a room's resolved sort value (meaningful under the
hypothesis that the value is numeric). -/
def sortKeyInt (parts : List String) (r : JSVal) : Int :=
  match resolvePath r parts with
  | .num n => n
  | _ => 0

/-- Shape test "the response field is a JSON number" (what the declared
`RoomSummary` record requires of `clients` and `maxClients`). -/
def isNumVal : JSVal → Bool
  | .num _ => true
  | _ => false

/-! ## Concrete fixtures used by witnesses and counterexamples -/

/-- A registry in which every remote call succeeds with `{}`. -/
def reg_ok : RegistryFn := fun _ _ _ => .ok (.obj .nil)

/-- Monitor options with every option left unset. -/
def opts_empty : MonitorOptions := {}

/-- Monitor options that disable `allowStateModification` only. -/
def opts_noStateMod : MonitorOptions :=
  { access := some { allowStateModification := some false } }

/-- Monitor options that disable `allowRoomDisposal` only (Scenario B). -/
def opts_noDisposal : MonitorOptions :=
  { access := some { allowRoomDisposal := some false } }

/-- A `JSON.parse` that rejects its input (a malformed JSON document). -/
def parse_fail : String → Option JSVal := fun _ => none

/-- A room record carrying no `metadata` object. -/
def room_u : JSVal := .obj (.cons "roomId" (.str "u") .nil)

/-- A room record with `metadata.x = 1`. -/
def room_d : JSVal :=
  .obj (.cons "roomId" (.str "d")
    (.cons "metadata" (.obj (.cons "x" (.num 1) .nil)) .nil))

/-- Two rooms with the same `clients` count (a sort tie). -/
def room_t1 : JSVal := .obj (.cons "roomId" (.str "a") (.cons "clients" (.num 1) .nil))

def room_t2 : JSVal := .obj (.cons "roomId" (.str "b") (.cons "clients" (.num 1) .nil))

/-- Three `GameRoom` records with clients 2, 5, 1 (the spec's Scenario A). -/
def room_g1 : JSVal :=
  .obj (.cons "roomId" (.str "g1") (.cons "name" (.str "GameRoom")
    (.cons "clients" (.num 2) (.cons "createdAt" (.num 0) .nil))))

def room_g2 : JSVal :=
  .obj (.cons "roomId" (.str "g2") (.cons "name" (.str "GameRoom")
    (.cons "clients" (.num 5) (.cons "createdAt" (.num 0) .nil))))

def room_g3 : JSVal :=
  .obj (.cons "roomId" (.str "g3") (.cons "name" (.str "GameRoom")
    (.cons "clients" (.num 1) (.cons "createdAt" (.num 0) .nil))))

/-- A lobby-typed room record. -/
def room_lobby : JSVal :=
  .obj (.cons "roomId" (.str "l1") (.cons "name" (.str "LobbyRoom")
    (.cons "clients" (.num 3) (.cons "createdAt" (.num 0) .nil))))

/-- The field list of a complete room record (used against the formatter). -/
def fields_m : JSFields :=
  .cons "roomId" (.str "r") (.cons "name" (.str "game")
    (.cons "clients" (.num 2) (.cons "maxClients" (.num 4)
      (.cons "createdAt" (.num 0) .nil))))

/-- Options restricting the room list to the `GameRoom` type. -/
def opts_gameOnly : MonitorOptions :=
  { filter := some { includeTypes := some ["GameRoom"] } }

/-! ## Generic facts about the stable sort model -/

theorem jsInsert_perm {α : Type} (cmp : α → α → Int) (x : α) (l : List α) :
    (jsInsert cmp x l).Perm (x :: l) := by
  induction l with
  | nil => simp [jsInsert]
  | cons y ys ih =>
    by_cases h : cmp x y ≤ 0
    · simp [jsInsert, h]
    · simp only [jsInsert, if_neg h]
      exact (ih.cons y).trans (List.Perm.swap x y ys)

theorem jsSort_perm {α : Type} (cmp : α → α → Int) (l : List α) :
    (jsSort cmp l).Perm l := by
  induction l with
  | nil => simp [jsSort]
  | cons x xs ih =>
    exact (jsInsert_perm cmp x (jsSort cmp xs)).trans (ih.cons x)

theorem mem_jsSort {α : Type} {cmp : α → α → Int} {l : List α} {z : α} :
    z ∈ jsSort cmp l ↔ z ∈ l :=
  (jsSort_perm cmp l).mem_iff

theorem length_jsSort {α : Type} (cmp : α → α → Int) (l : List α) :
    (jsSort cmp l).length = l.length :=
  (jsSort_perm cmp l).length_eq

theorem filter_jsInsert_pos {α : Type} {cmp : α → α → Int} {p : α → Bool} {x : α}
    {l : List α} (hx : p x = true) (h : ∀ y ∈ l, p y = true → cmp x y ≤ 0) :
    (jsInsert cmp x l).filter p = x :: l.filter p := by
  induction l with
  | nil => simp [jsInsert, hx]
  | cons y ys ih =>
    by_cases hc : cmp x y ≤ 0
    · simp [jsInsert, hc, List.filter_cons, hx]
    · have hy : p y = false := by
        cases hpy : p y with
        | false => rfl
        | true => exact absurd (h y (by simp) hpy) hc
      simp only [jsInsert, if_neg hc, List.filter_cons, hy]
      simpa [hy] using ih (fun z hz hp => h z (by simp [hz]) hp)

theorem filter_jsInsert_neg {α : Type} {cmp : α → α → Int} {p : α → Bool} {x : α}
    {l : List α} (hx : p x = false) :
    (jsInsert cmp x l).filter p = l.filter p := by
  induction l with
  | nil => simp [jsInsert, hx]
  | cons y ys ih =>
    by_cases hc : cmp x y ≤ 0
    · simp [jsInsert, hc, List.filter_cons, hx]
    · simp only [jsInsert, if_neg hc, List.filter_cons]
      rw [ih]

theorem filter_jsSort {α : Type} {cmp : α → α → Int} {p : α → Bool}
    (hp : ∀ a b, p a = true → p b = true → cmp a b ≤ 0) (l : List α) :
    (jsSort cmp l).filter p = l.filter p := by
  induction l with
  | nil => simp [jsSort]
  | cons x xs ih =>
    simp only [jsSort]
    cases hx : p x with
    | true =>
      rw [filter_jsInsert_pos hx (fun y _ hy => hp x y hx hy), ih,
        List.filter_cons]
      simp [hx]
    | false =>
      rw [filter_jsInsert_neg hx, ih, List.filter_cons]
      simp [hx]

theorem mem_jsInsert {α : Type} {cmp : α → α → Int} {x z : α} {l : List α}
    (h : z ∈ jsInsert cmp x l) : z = x ∨ z ∈ l := by
  have := (jsInsert_perm cmp x l).mem_iff.mp h
  simpa using this

theorem pairwise_jsInsert_key {α : Type} {cmp : α → α → Int} {k : α → Int} {x : α}
    {l : List α} (hx : ∀ y ∈ l, cmp x y ≤ 0 ↔ k x ≤ k y)
    (hl : l.Pairwise (fun a b => k a ≤ k b)) :
    (jsInsert cmp x l).Pairwise (fun a b => k a ≤ k b) := by
  induction l with
  | nil => simp [jsInsert]
  | cons y ys ih =>
    rcases List.pairwise_cons.mp hl with ⟨hyz, hys⟩
    by_cases hc : cmp x y ≤ 0
    · have hxy : k x ≤ k y := (hx y (by simp)).mp hc
      simp only [jsInsert, if_pos hc]
      refine List.pairwise_cons.mpr ⟨?_, hl⟩
      intro z hz
      rcases List.mem_cons.mp hz with rfl | hz
      · exact hxy
      · exact le_trans hxy (hyz z hz)
    · have hyx : k y ≤ k x := by
        have := (hx y (by simp)).not.mp hc
        omega
      simp only [jsInsert, if_neg hc]
      refine List.pairwise_cons.mpr ⟨?_, ih (fun z hz => hx z (by simp [hz])) hys⟩
      intro z hz
      rcases mem_jsInsert hz with rfl | hz
      · exact hyx
      · exact hyz z hz

theorem pairwise_jsSort_key {α : Type} {cmp : α → α → Int} {k : α → Int}
    {l : List α} (h : ∀ a ∈ l, ∀ b ∈ l, (cmp a b ≤ 0 ↔ k a ≤ k b)) :
    (jsSort cmp l).Pairwise (fun a b => k a ≤ k b) := by
  induction l with
  | nil => simp [jsSort]
  | cons x xs ih =>
    simp only [jsSort]
    refine pairwise_jsInsert_key ?_ (ih ?_)
    · intro y hy
      exact h x (by simp) y (by simp [mem_jsSort.mp hy])
    · intro a ha b hb
      exact h a (by simp [ha]) b (by simp [hb])

theorem eq_of_perm_of_pairwise_key {α : Type} (k : α → Int) :
    ∀ {l₁ l₂ : List α}, l₁.Perm l₂ →
      l₁.Pairwise (fun a b => k a ≤ k b) → l₂.Pairwise (fun a b => k a ≤ k b) →
      (∀ a ∈ l₁, ∀ b ∈ l₁, k a = k b → a = b) → l₁ = l₂
  | [], l₂, hperm, _, _, _ => (hperm.symm.eq_nil).symm
  | x :: xs, [], hperm, _, _, _ => absurd hperm.length_eq (by simp)
  | x :: xs, y :: ys, hperm, h₁, h₂, hinj => by
    rcases List.pairwise_cons.mp h₁ with ⟨hx₁, hxs⟩
    rcases List.pairwise_cons.mp h₂ with ⟨hy₂, hys⟩
    have hyx : y ∈ x :: xs := hperm.mem_iff.mpr (by simp)
    have hxy : x ∈ y :: ys := hperm.mem_iff.mp (by simp)
    have hxeqy : x = y := by
      rcases List.mem_cons.mp hyx with h | hymem
      · exact h.symm
      · rcases List.mem_cons.mp hxy with h | hxmem
        · exact h
        · exact hinj x (by simp) y (by simp [hymem])
            (le_antisymm (hx₁ y hymem) (hy₂ x hxmem))
    subst hxeqy
    have htail : xs.Perm ys := hperm.cons_inv
    have : xs = ys :=
      eq_of_perm_of_pairwise_key k htail hxs hys
        (fun a ha b hb => hinj a (by simp [ha]) b (by simp [hb]))
    rw [this]

/-! ## Facts about the JS primitives and the room comparator -/

theorem jsStrictEq_eq {a b : JSVal} (h : jsStrictEq a b = true) : a = b := by
  cases a <;> cases b <;> simp_all [jsStrictEq]

theorem jsStrictEq_undef_left {b : JSVal} (hb : b ≠ JSVal.undefined) :
    jsStrictEq .undefined b = false := by
  cases b <;> simp_all [jsStrictEq]

theorem jsLt_undef_left (b : JSVal) : jsLt .undefined b = false := by
  cases b <;> rfl

theorem jsLt_undef_right (a : JSVal) : jsLt a .undefined = false := by
  cases a <;> simp [jsLt, toNumber]

theorem jsStrictEq_num_num (m n : Int) :
    jsStrictEq (.num m) (.num n) = true ↔ m = n := by
  simp [jsStrictEq]

theorem jsLt_num_num (m n : Int) : jsLt (.num m) (.num n) = decide (m < n) := rfl

/-- The two values of one comparison form an equal `===`-class: `===` to a
common reference value makes them `===` to each other. -/
theorem jsStrictEq_trans_self {a b v : JSVal} (ha : jsStrictEq a v = true)
    (hb : jsStrictEq b v = true) : jsStrictEq a b = true := by
  rw [jsStrictEq_eq ha, jsStrictEq_eq hb]
  cases v <;> simp_all [jsStrictEq]

theorem roomCompare_eq_zero {sortKey : String} {ord : SortOrder} {a b : JSVal}
    (h : jsStrictEq (resolvePath a (splitOnSep '.' sortKey))
      (resolvePath b (splitOnSep '.' sortKey)) = true) :
    roomCompare sortKey ord a b = 0 := by
  simp [roomCompare, h]

/-- Comparator on two rooms whose resolved sort values are integers. -/
theorem roomCompare_num {sortKey : String} {a b : JSVal} {m n : Int}
    (ha : resolvePath a (splitOnSep '.' sortKey) = .num m)
    (hb : resolvePath b (splitOnSep '.' sortKey) = .num n) (ord : SortOrder) :
    roomCompare sortKey ord a b =
      if m = n then 0
      else
        let result : Int := if m < n then -1 else 1
        if ord = SortOrder.desc then -result else result := by
  simp only [roomCompare, ha, hb, jsStrictEq_num_num, jsLt_num_num]
  by_cases h : m = n <;> simp [h]

theorem roomCompare_asc_le_iff {sortKey : String} {a b : JSVal} {m n : Int}
    (ha : resolvePath a (splitOnSep '.' sortKey) = .num m)
    (hb : resolvePath b (splitOnSep '.' sortKey) = .num n) :
    (roomCompare sortKey .asc a b ≤ 0 ↔ m ≤ n) := by
  rw [roomCompare_num ha hb .asc]
  by_cases h : m = n
  · simp [h]
  · by_cases hlt : m < n
    · simp only [h, if_false, hlt, if_true, if_neg (by trivial : ¬m = n)]
      simp
      omega
    · simp only [if_neg h, if_neg hlt]
      simp
      omega

theorem roomCompare_desc_le_iff {sortKey : String} {a b : JSVal} {m n : Int}
    (ha : resolvePath a (splitOnSep '.' sortKey) = .num m)
    (hb : resolvePath b (splitOnSep '.' sortKey) = .num n) :
    (roomCompare sortKey .desc a b ≤ 0 ↔ n ≤ m) := by
  rw [roomCompare_num ha hb .desc]
  by_cases h : m = n
  · simp [h]
  · by_cases hlt : m < n
    · simp only [if_neg h, if_pos hlt]
      simp
      omega
    · simp only [if_neg h, if_neg hlt]
      simp
      omega

theorem applySorting_eq_jsSort {s : String} (hs : s ≠ "") (rooms : List JSVal)
    (ord : SortOrder) :
    applySorting rooms (some s) ord = jsSort (roomCompare s ord) rooms := by
  simp [applySorting, hs]

theorem mem_applySorting {rooms : List JSVal} {sort : Option String}
    {ord : SortOrder} {r : JSVal} :
    r ∈ applySorting rooms sort ord ↔ r ∈ rooms := by
  cases sort with
  | none => simp [applySorting]
  | some s =>
    by_cases hs : s = ""
    · simp [applySorting, hs]
    · rw [applySorting_eq_jsSort hs]
      exact mem_jsSort

theorem length_applySorting (rooms : List JSVal) (sort : Option String)
    (ord : SortOrder) :
    (applySorting rooms sort ord).length = rooms.length := by
  cases sort with
  | none => rfl
  | some s =>
    by_cases hs : s = ""
    · simp [applySorting, hs]
    · rw [applySorting_eq_jsSort hs, length_jsSort]

/-- Stability of `applySorting` across one `===`-class of resolved sort
values: the subsequence of rooms comparing `===` to a common value is
returned in its original order. -/
theorem applySorting_filter_stable (rooms : List JSVal) (s : String)
    (ord : SortOrder) (v : JSVal) :
    (applySorting rooms (some s) ord).filter
        (fun r => jsStrictEq (resolvePath r (splitOnSep '.' s)) v) =
      rooms.filter (fun r => jsStrictEq (resolvePath r (splitOnSep '.' s)) v) := by
  by_cases hs : s = ""
  · simp [applySorting, hs]
  · rw [applySorting_eq_jsSort hs]
    refine filter_jsSort ?_ rooms
    intro a b ha hb
    rw [roomCompare_eq_zero (jsStrictEq_trans_self ha hb)]

/-! ## Membership through the filter pipeline -/

theorem mem_filterInclude {rooms : List JSVal} {inc : Option (List String)}
    {r : JSVal} (h : r ∈ filterInclude rooms inc) : r ∈ rooms := by
  cases inc with
  | none => exact h
  | some ts =>
    simp only [filterInclude] at h
    by_cases hts : 0 < ts.length
    · rw [if_pos hts] at h
      exact (List.mem_filter.mp h).1
    · rwa [if_neg hts] at h

theorem mem_filterExclude {rooms : List JSVal} {exc : Option (List String)}
    {r : JSVal} (h : r ∈ filterExclude rooms exc) : r ∈ rooms := by
  cases exc with
  | none => exact h
  | some ts =>
    simp only [filterExclude] at h
    by_cases hts : 0 < ts.length
    · rw [if_pos hts] at h
      exact (List.mem_filter.mp h).1
    · rwa [if_neg hts] at h

theorem mem_applyRoomFilters {rooms : List JSVal} {fo : Option FilterOptions}
    {r : JSVal} (h : r ∈ applyRoomFilters rooms fo) : r ∈ rooms := by
  cases fo with
  | none => exact h
  | some f => exact mem_filterInclude (mem_filterExclude h)

theorem mem_adhocFilter {rooms : List JSVal}
    {filterObj : Option (List (String × JSVal))} {r : JSVal}
    (h : r ∈ adhocFilter rooms filterObj) : r ∈ rooms := by
  cases filterObj with
  | none => exact h
  | some entries => exact (List.mem_filter.mp h).1

/-- Rooms surviving a non-empty `includeTypes` have a matching type name. -/
theorem applyRoomFilters_include {rooms : List JSVal} {f : FilterOptions}
    {r : JSVal} (h : r ∈ applyRoomFilters rooms (some f)) {ts : List String}
    (hts : f.includeTypes = some ts) (hlen : 0 < ts.length) :
    includesStr ts (jsGet r "name") = true := by
  have h1 : r ∈ filterInclude rooms f.includeTypes := mem_filterExclude h
  rw [hts] at h1
  simp only [filterInclude, if_pos hlen] at h1
  exact (List.mem_filter.mp h1).2

/-- Rooms surviving a non-empty `excludeTypes` have no matching type name. -/
theorem applyRoomFilters_exclude {rooms : List JSVal} {f : FilterOptions}
    {r : JSVal} (h : r ∈ applyRoomFilters rooms (some f)) {ts : List String}
    (hts : f.excludeTypes = some ts) (hlen : 0 < ts.length) :
    includesStr ts (jsGet r "name") = false := by
  simp only [applyRoomFilters, hts] at h
  simp only [filterExclude, if_pos hlen] at h
  have := (List.mem_filter.mp h).2
  simpa using this

/-! ## Object-field bookkeeping used by the room formatter -/

theorem JSFields.lookup_set_same :
    ∀ (fs : JSFields) (k : String) (v : JSVal), (fs.set k v).lookup k = some v
  | .nil, k, v => by simp [JSFields.set, JSFields.lookup]
  | .cons k0 v0 tl, k, v => by
    by_cases hk : k0 = k
    · simp [JSFields.set, hk, JSFields.lookup]
    · simp [JSFields.set, hk, JSFields.lookup, JSFields.lookup_set_same tl k v]

theorem JSFields.lookup_set_ne :
    ∀ (fs : JSFields) {k k' : String}, k' ≠ k → ∀ (v : JSVal),
      (fs.set k' v).lookup k = fs.lookup k
  | .nil, k, k', h, v => by simp [JSFields.set, JSFields.lookup, h]
  | .cons k0 v0 tl, k, k', h, v => by
    by_cases hk : k0 = k'
    · subst hk
      simp [JSFields.set, JSFields.lookup, h]
    · simp [JSFields.set, hk, JSFields.lookup, JSFields.lookup_set_ne tl h v]

theorem lookup_jsonRoundTripFields_num :
    ∀ (fs : JSFields) {k : String} {n : Int},
      fs.lookup k = some (.num n) →
      (jsonRoundTripFields fs).lookup k = some (.num n)
  | .nil, k, n, h => by simp [JSFields.lookup] at h
  | .cons k0 v0 tl, k, n, h => by
    by_cases hk : k0 = k
    · subst hk
      simp [JSFields.lookup] at h
      subst h
      simp [jsonRoundTripFields, JSFields.lookup, jsonRoundTrip]
    · simp only [JSFields.lookup, if_neg hk] at h
      cases v0 with
      | undefined => simpa [jsonRoundTripFields] using lookup_jsonRoundTripFields_num tl h
      | null => simpa [jsonRoundTripFields, JSFields.lookup, hk]
          using lookup_jsonRoundTripFields_num tl h
      | nan => simpa [jsonRoundTripFields, JSFields.lookup, hk]
          using lookup_jsonRoundTripFields_num tl h
      | bool b => simpa [jsonRoundTripFields, JSFields.lookup, hk]
          using lookup_jsonRoundTripFields_num tl h
      | num m => simpa [jsonRoundTripFields, JSFields.lookup, hk]
          using lookup_jsonRoundTripFields_num tl h
      | str s => simpa [jsonRoundTripFields, JSFields.lookup, hk]
          using lookup_jsonRoundTripFields_num tl h
      | arr xs => simpa [jsonRoundTripFields, JSFields.lookup, hk]
          using lookup_jsonRoundTripFields_num tl h
      | obj gs => simpa [jsonRoundTripFields, JSFields.lookup, hk]
          using lookup_jsonRoundTripFields_num tl h

theorem jsGet_obj (fs : JSFields) (k : String) :
    jsGet (.obj fs) k = (fs.lookup k).getD .undefined := rfl

/-- The formatter does not touch the `clients` field: a numeric `clients`
value survives the JSON round trip and the four property writes. -/
theorem jsGet_formatRoom_clients {fs : JSFields} {n : Int}
    (h : jsGet (.obj fs) "clients" = .num n) (now : Int) :
    jsGet (formatRoom now (.obj fs)) "clients" = .num n := by
  have hl : fs.lookup "clients" = some (.num n) := by
    rw [jsGet_obj] at h
    cases hx : fs.lookup "clients" with
    | none => rw [hx] at h; exact absurd h (by simp)
    | some v => rw [hx] at h; simp at h; rw [h]
  have hrt := lookup_jsonRoundTripFields_num fs hl
  simp only [formatRoom, jsonRoundTrip, jsSet, jsGet_obj]
  rw [JSFields.lookup_set_ne _ (by decide) _, JSFields.lookup_set_ne _ (by decide) _,
    JSFields.lookup_set_ne _ (by decide) _, JSFields.lookup_set_ne _ (by decide) _, hrt]
  rfl

/-- The formatter replaces `maxClients` by its template-literal string. -/
theorem jsGet_formatRoom_maxClients (fs : JSFields) (now : Int) :
    jsGet (formatRoom now (.obj fs)) "maxClients" =
      .str (jsToString (jsGet (.obj fs) "maxClients")) := by
  simp only [formatRoom, jsonRoundTrip, jsSet, jsGet_obj]
  rw [JSFields.lookup_set_ne _ (by decide) _, JSFields.lookup_set_same]
  rfl

/-! ## The `connections` accumulator -/

theorem jsAdd_num_num (m n : Int) : jsAdd (.num m) (.num n) = .num (m + n) := rfl

theorem foldl_connections :
    ∀ (l : List JSVal), (∀ r ∈ l, ∃ n : Int, jsGet r "clients" = .num n) →
      ∀ m : Int,
        l.foldl (fun acc room => jsAdd acc (jsGet room "clients")) (.num m) =
          .num (m + (l.map clientsInt).sum)
  | [], _, m => by simp
  | r :: tl, h, m => by
    obtain ⟨n, hn⟩ := h r (by simp)
    have htl := foldl_connections tl (fun x hx => h x (by simp [hx]))
    simp only [List.foldl_cons, hn, jsAdd_num_num, htl (m + n), List.map_cons,
      List.sum_cons, clientsInt, hn]
    congr 1
    ring

/-! ## Pagination arithmetic -/

/-- `(total + limit - 1) / limit` is the least page count covering `total`
rooms, i.e. `Math.ceil(total / limit)`. -/
theorem ceil_div_spec (total limit : Nat) (hl : 1 ≤ limit) :
    total ≤ ((total + limit - 1) / limit) * limit ∧
      ∀ m : Nat, total ≤ m * limit → (total + limit - 1) / limit ≤ m := by
  constructor
  · have hd := Nat.div_add_mod (total + limit - 1) limit
    have hm : (total + limit - 1) % limit < limit := Nat.mod_lt _ (by omega)
    rw [Nat.mul_comm]
    generalize hq : limit * ((total + limit - 1) / limit) = p at hd ⊢
    omega
  · intro m hm
    have hlt : total + limit - 1 < (m + 1) * limit := by
      have hmul : (m + 1) * limit = m * limit + limit := by ring
      rw [hmul]
      omega
    have := (Nat.div_lt_iff_lt_mul (by omega : 0 < limit)).mpr hlt
    omega

theorem window_take_len {page limit : Nat} (hp : 1 ≤ page) :
    page * limit - (page - 1) * limit = limit := by
  obtain ⟨p, rfl⟩ : ∃ p, page = p + 1 := ⟨page - 1, by omega⟩
  simp [Nat.succ_mul]

theorem jsStrictEq_undef_right {a : JSVal} (ha : a ≠ JSVal.undefined) :
    jsStrictEq a .undefined = false := by
  cases a <;> simp_all [jsStrictEq]

theorem clientsInt_formatRoom {r : JSVal} {n : Int}
    (hn : jsGet r "clients" = .num n) (now : Int) :
    jsGet (formatRoom now r) "clients" = .num n := by
  cases r with
  | obj fs => exact jsGet_formatRoom_clients hn now
  | undefined => simp [jsGet] at hn
  | null => simp [jsGet] at hn
  | nan => simp [jsGet] at hn
  | bool b => simp [jsGet] at hn
  | num m => simp [jsGet] at hn
  | str s => simp [jsGet] at hn
  | arr xs => simp [jsGet] at hn

/-! ## Claims -/

/-- C1, counterexample: with `allowStateModification` explicitly disabled,
a `GET /room/call` for the state-mutating method `_updateRoomState` still
reaches the registry (one remote call is performed) and is answered 200,
not 403 — contradicting the claim that the dispatcher is never invoked and
the response is a 403. -/
theorem c1_counterexample :
    (roomCallTry opts_noStateMod reg_ok "r1" "_updateRoomState" (.arr .nil)).1.status ≠ 403 ∧
    (roomCallTry opts_noStateMod reg_ok "r1" "_updateRoomState" (.arr .nil)).2 ≠ [] := by
  decide

/-- C1, amended: the `/room/call` handler guards only `disconnect` (behind
`allowRoomDisposal`) and `_sendMessageToClient` (behind
`allowClientMessages`); a state-mutating call such as `_updateRoomState` is
always dispatched as exactly one bare remote call and is never answered 403,
whatever the configured `allowStateModification` flag — the flag is not
enforced by the gateway. -/
theorem c1_amended (opts : MonitorOptions) (reg : RegistryFn) (roomId : String)
    (args : JSVal) :
    (roomCallTry opts reg roomId "_updateRoomState" args).2 =
      [⟨roomId, "_updateRoomState", some args⟩] ∧
    (roomCallTry opts reg roomId "_updateRoomState" args).1.status ≠ 403 := by
  unfold roomCallTry
  rw [if_neg (fun hc => absurd hc.1 (by decide)),
    if_neg (fun hc => absurd hc.1 (by decide)),
    if_neg (by decide : ¬strStartsWith "_updateRoomState" "customAction:" = true),
    if_neg (by decide : ¬strStartsWith "_updateRoomState" "customClientAction:" = true)]
  cases hreg : reg roomId "_updateRoomState" (some args) with
  | ok data => simp [hreg]
  | error e => simp [hreg, handleErrorResp]

/-- C2, counterexample: sorting ascending on `metadata.x`, the room whose
path resolution hits the missing `metadata` attribute gets the comparison
value `undefined`, but it is ordered after (comparator value `1`), not
before, the room with the defined value: the list that already had the
undefined-valued room first comes back swapped. -/
theorem c2_counterexample :
    roomCompare "metadata.x" .asc room_u room_d = 1 ∧
    applySorting [room_u, room_d] (some "metadata.x") .asc = [room_d, room_u] := by
  decide

/-- C2, amended: a missing intermediate attribute yields the comparison
value `undefined`, and the comparator orders such a room after — not before —
any room with a defined comparison value: in ascending order it returns `1`
in both argument orders (never `-1`).  Rooms with `===`-equal comparison
values do keep their original relative order. -/
theorem c2_amended (sortKey : String) (ord : SortOrder) (rooms : List JSVal)
    (v a b : JSVal)
    (ha : resolvePath a (splitOnSep '.' sortKey) = .undefined)
    (hb : resolvePath b (splitOnSep '.' sortKey) ≠ .undefined) :
    roomCompare sortKey .asc a b = 1 ∧ roomCompare sortKey .asc b a = 1 ∧
    (applySorting rooms (some sortKey) ord).filter
        (fun r => jsStrictEq (resolvePath r (splitOnSep '.' sortKey)) v) =
      rooms.filter (fun r => jsStrictEq (resolvePath r (splitOnSep '.' sortKey)) v) := by
  refine ⟨?_, ?_, applySorting_filter_stable rooms sortKey ord v⟩
  · simp only [roomCompare, ha]
    rw [jsStrictEq_undef_left hb, jsLt_undef_left]
    simp
  · simp only [roomCompare, ha]
    rw [jsStrictEq_undef_right hb, jsLt_undef_right]
    simp

/-- C2, witness: the amended statement at the two concrete rooms and the
comparison value `1`. -/
theorem c2_witness :
    roomCompare "metadata.x" .asc room_u room_d = 1 ∧
    roomCompare "metadata.x" .asc room_d room_u = 1 ∧
    (applySorting [room_u, room_d] (some "metadata.x") .asc).filter
        (fun r => jsStrictEq (resolvePath r (splitOnSep '.' "metadata.x")) (.num 1)) =
      [room_u, room_d].filter
        (fun r => jsStrictEq (resolvePath r (splitOnSep '.' "metadata.x")) (.num 1)) :=
  c2_amended "metadata.x" .asc [room_u, room_d] (.num 1) room_u room_d
    (by decide) (by decide)

/-- C3, counterexample: with a tie on the sort key (two rooms with
`clients = 1`), the stable sort leaves the original order in both
directions, so the descending output is not the reverse of the ascending
output. -/
theorem c3_counterexample :
    applySorting [room_t1, room_t2] (some "clients") .desc ≠
      (applySorting [room_t1, room_t2] (some "clients") .asc).reverse := by
  decide

/-- C3, amended: for a non-empty sort key under which every room resolves
to a number and no two rooms resolve to the same value (no ties), sorting
descending produces exactly the reverse of the ascending output.  With ties
the comparator returns `0` both ways and stability keeps the original
relative order in both directions, so the exact-reverse symmetry is
restricted to tie-free lists. -/
theorem c3_amended (sortKey : String) (rooms : List JSVal)
    (hkey : sortKey ≠ "")
    (hnum : ∀ r ∈ rooms, ∃ n : Int, resolvePath r (splitOnSep '.' sortKey) = .num n)
    (hdist : rooms.Pairwise (fun a b =>
      resolvePath a (splitOnSep '.' sortKey) ≠ resolvePath b (splitOnSep '.' sortKey))) :
    applySorting rooms (some sortKey) .desc =
      (applySorting rooms (some sortKey) .asc).reverse := by
  have hk : ∀ r ∈ rooms,
      resolvePath r (splitOnSep '.' sortKey) =
        .num (sortKeyInt (splitOnSep '.' sortKey) r) := by
    intro r hr
    obtain ⟨n, hn⟩ := hnum r hr
    rw [hn, sortKeyInt, hn]
  have hinj : ∀ a ∈ rooms, ∀ b ∈ rooms,
      sortKeyInt (splitOnSep '.' sortKey) a = sortKeyInt (splitOnSep '.' sortKey) b →
      a = b := by
    intro a ha b hb hab
    by_contra hne
    have hne' := List.Pairwise.forall (fun x y h => Ne.symm h) hdist ha hb hne
    exact hne' (by rw [hk a ha, hk b hb, hab])
  rw [applySorting_eq_jsSort hkey, applySorting_eq_jsSort hkey]
  have hasc : (jsSort (roomCompare sortKey .asc) rooms).Pairwise
      (fun a b => sortKeyInt (splitOnSep '.' sortKey) a ≤
        sortKeyInt (splitOnSep '.' sortKey) b) :=
    pairwise_jsSort_key (fun a ha b hb => roomCompare_asc_le_iff (hk a ha) (hk b hb))
  have hdesc : (jsSort (roomCompare sortKey .desc) rooms).Pairwise
      (fun a b => -(sortKeyInt (splitOnSep '.' sortKey) a) ≤
        -(sortKeyInt (splitOnSep '.' sortKey) b)) :=
    pairwise_jsSort_key
      (fun a ha b hb => by
        rw [roomCompare_desc_le_iff (hk a ha) (hk b hb)]
        omega)
  have hrev : ((jsSort (roomCompare sortKey .asc) rooms).reverse).Pairwise
      (fun a b => -(sortKeyInt (splitOnSep '.' sortKey) a) ≤
        -(sortKeyInt (splitOnSep '.' sortKey) b)) := by
    rw [List.pairwise_reverse]
    exact hasc.imp (fun h => by omega)
  have hperm : (jsSort (roomCompare sortKey .desc) rooms).Perm
      ((jsSort (roomCompare sortKey .asc) rooms).reverse) :=
    ((jsSort_perm _ rooms).trans (jsSort_perm _ rooms).symm).trans
      (List.reverse_perm _).symm
  refine eq_of_perm_of_pairwise_key _ hperm hdesc hrev ?_
  intro a ha b hb hab
  exact hinj a (mem_jsSort.mp ha) b (mem_jsSort.mp hb) (by omega)

/-- C3, witness: the amended statement on two rooms with distinct numeric
`clients` values. -/
theorem c3_witness :
    applySorting [room_g1, room_g2] (some "clients") .desc =
      (applySorting [room_g1, room_g2] (some "clients") .asc).reverse :=
  c3_amended "clients" [room_g1, room_g2] (by decide)
    (by
      intro r hr
      rcases List.mem_cons.mp hr with rfl | hr
      · exact ⟨2, by decide⟩
      · rcases List.mem_cons.mp hr with rfl | hr
        · exact ⟨5, by decide⟩
        · exact absurd hr (List.not_mem_nil r))
    (by decide)

/-- C4: for `page ≥ 1` and `limit ≥ 1`, the `GET /` response reports
`pagination.total` as the size of the filtered list before pagination,
unchanged under any other `page`/`limit` choice; `pagination.pages` is the
least number of pages covering `total` (i.e. `ceil(total/limit)`); the
returned rooms are the formatted window of the sorted filtered list starting
at offset `(page-1)*limit` with at most `limit` entries; and a page beyond
`pages` yields an empty rooms array rather than an error. -/
theorem c4_pagination (allRooms : List JSVal) (opts : MonitorOptions)
    (filterObj : Option (List (String × JSVal))) (sort : Option String)
    (ord : SortOrder) (page limit page2 limit2 : Nat) (now : Int)
    (hp : 1 ≤ page) (hl : 1 ≤ limit) :
    (handleIndex allRooms opts filterObj sort ord page limit now).total =
      (adhocFilter (applyRoomFilters allRooms opts.filter) filterObj).length ∧
    (handleIndex allRooms opts filterObj sort ord page2 limit2 now).total =
      (handleIndex allRooms opts filterObj sort ord page limit now).total ∧
    (handleIndex allRooms opts filterObj sort ord page limit now).total ≤
      (handleIndex allRooms opts filterObj sort ord page limit now).pages * limit ∧
    (∀ m : Nat,
      (handleIndex allRooms opts filterObj sort ord page limit now).total ≤ m * limit →
      (handleIndex allRooms opts filterObj sort ord page limit now).pages ≤ m) ∧
    (handleIndex allRooms opts filterObj sort ord page limit now).rooms =
      (((applySorting (adhocFilter (applyRoomFilters allRooms opts.filter) filterObj)
          sort ord).drop ((page - 1) * limit)).take limit).map (formatRoom now) ∧
    (handleIndex allRooms opts filterObj sort ord page limit now).rooms.length ≤ limit ∧
    ((handleIndex allRooms opts filterObj sort ord page limit now).pages < page →
      (handleIndex allRooms opts filterObj sort ord page limit now).rooms = []) := by
  obtain ⟨hle, hmin⟩ :=
    ceil_div_spec (adhocFilter (applyRoomFilters allRooms opts.filter) filterObj).length
      limit hl
  refine ⟨rfl, rfl, hle, fun m hm => hmin m hm, ?_, ?_, ?_⟩
  · simp only [handleIndex]
    rw [window_take_len hp]
  · simp only [handleIndex, List.length_map, List.length_take, window_take_len hp]
    exact Nat.min_le_left _ _
  · intro hover
    simp only [handleIndex] at hover ⊢
    have hlen : (applySorting
        (adhocFilter (applyRoomFilters allRooms opts.filter) filterObj) sort ord).length ≤
        (page - 1) * limit := by
      rw [length_applySorting]
      calc (adhocFilter (applyRoomFilters allRooms opts.filter) filterObj).length
          ≤ ((adhocFilter (applyRoomFilters allRooms opts.filter) filterObj).length +
              limit - 1) / limit * limit := hle
        _ ≤ (page - 1) * limit := Nat.mul_le_mul_right limit (by omega)
    rw [List.drop_eq_nil_of_le hlen]
    simp

/-- C4, witness: the reported total at Scenario A's rooms and query. -/
theorem c4_witness :
    (handleIndex [room_g1, room_g2, room_g3] opts_empty none (some "clients")
        .desc 1 2 0).total =
      (adhocFilter (applyRoomFilters [room_g1, room_g2, room_g3] opts_empty.filter)
        none).length :=
  (c4_pagination [room_g1, room_g2, room_g3] opts_empty none (some "clients")
    .desc 1 2 3 5 0 (by decide) (by decide)).1

/-- C5: every room of a `GET /` response page is the formatted image of a
room that passed the configured type filter — with a non-empty
`includeTypes` its type name is one of the included types, with a non-empty
`excludeTypes` its type name is none of the excluded types — and this holds
whatever ad-hoc query filter, sort and pagination were also applied, since
the type filter runs first. -/
theorem c5_type_filter (allRooms : List JSVal) (opts : MonitorOptions)
    (filterObj : Option (List (String × JSVal))) (sort : Option String)
    (ord : SortOrder) (page limit : Nat) (now : Int) (fr : JSVal)
    (hmem : fr ∈ (handleIndex allRooms opts filterObj sort ord page limit now).rooms) :
    ∃ r, r ∈ applyRoomFilters allRooms opts.filter ∧ fr = formatRoom now r ∧
      (∀ f ts, opts.filter = some f → f.includeTypes = some ts → 0 < ts.length →
        includesStr ts (jsGet r "name") = true) ∧
      (∀ f ts, opts.filter = some f → f.excludeTypes = some ts → 0 < ts.length →
        includesStr ts (jsGet r "name") = false) := by
  simp only [handleIndex] at hmem
  obtain ⟨r, hr, hfr⟩ := List.mem_map.mp hmem
  have hr1 : r ∈ applySorting
      (adhocFilter (applyRoomFilters allRooms opts.filter) filterObj) sort ord :=
    List.mem_of_mem_drop (List.mem_of_mem_take hr)
  have hr3 : r ∈ applyRoomFilters allRooms opts.filter :=
    mem_adhocFilter (mem_applySorting.mp hr1)
  refine ⟨r, hr3, hfr.symm, ?_, ?_⟩
  · intro f ts hf hts hlen
    rw [hf] at hr3
    exact applyRoomFilters_include hr3 hts hlen
  · intro f ts hf hts hlen
    rw [hf] at hr3
    exact applyRoomFilters_exclude hr3 hts hlen

/-- C5, witness: with `includeTypes = ["GameRoom"]`, the single returned
room is the image of a room that passed the type filter. -/
theorem c5_witness :
    ∃ r, r ∈ applyRoomFilters [room_g1, room_lobby] opts_gameOnly.filter ∧
      formatRoom 0 room_g1 = formatRoom 0 r ∧
      (∀ f ts, opts_gameOnly.filter = some f → f.includeTypes = some ts →
        0 < ts.length → includesStr ts (jsGet r "name") = true) ∧
      (∀ f ts, opts_gameOnly.filter = some f → f.excludeTypes = some ts →
        0 < ts.length → includesStr ts (jsGet r "name") = false) :=
  c5_type_filter [room_g1, room_lobby] opts_gameOnly none none .asc 1 100 0
    (formatRoom 0 room_g1) (by decide)

/-- C6: the claim fails on the code for the `args` parameter of
`GET /room/call`.  `JSON.parse((req.query.args as string) || "[]")` is
executed before the handler's try/catch block, so a malformed `args`
document makes the async handler reject without writing any HTTP response
(modelled as `none`) — an unhandled promise rejection, not a converted HTTP
error.  All other failures of this handler are inside the try/catch. -/
theorem c6_parse_outside_try (opts : MonitorOptions) (reg : RegistryFn)
    (parseJson : String → Option JSVal) (roomId method s : String)
    (hs : s ≠ "") (hparse : parseJson s = none) :
    roomCallEndpoint opts reg parseJson roomId method (some s) = none := by
  simp [roomCallEndpoint, hs, hparse]

/-- C6, witness: a request with the malformed argument document, against a
parser rejecting it, produces no HTTP response. -/
theorem c6_witness :
    roomCallEndpoint opts_empty reg_ok parse_fail "r1" "disconnect"
      (some "not-json") = none :=
  c6_parse_outside_try opts_empty reg_ok parse_fail "r1" "disconnect"
    "not-json" (by decide) rfl

/-- C7: a `customAction:<id>` request whose id is registered for no
room-scoped action is answered 404 with message `Custom action <id> not
found` and performs no remote call; likewise a `customClientAction:<id>:...`
request with an id registered for no client-scoped action is answered 404
with `Custom client action <id> not found` and performs no remote call. -/
theorem c7_unknown_custom_action :
    (∀ (opts : MonitorOptions) (reg : RegistryFn) (roomId method : String)
      (args : JSVal),
      strStartsWith method "customAction:" = true →
      (∀ a ∈ (opts.actions.bind ActionsOptions.room).getD [],
        a.id ≠ strDrop method ("customAction:".length)) →
      roomCallTry opts reg roomId method args =
        (handleErrorResp
          ("Custom action " ++ strDrop method ("customAction:".length) ++
            " not found") 404, [])) ∧
    (∀ (opts : MonitorOptions) (reg : RegistryFn) (roomId method : String)
      (args : JSVal),
      strStartsWith method "customClientAction:" = true →
      (∀ a ∈ (opts.actions.bind ActionsOptions.client).getD [],
        a.id ≠ (splitOnSep ':'
          (strDrop method ("customClientAction:".length))).headD "") →
      roomCallTry opts reg roomId method args =
        (handleErrorResp
          ("Custom client action " ++
            (splitOnSep ':' (strDrop method ("customClientAction:".length))).headD "" ++
            " not found") 404, [])) := by
  constructor
  · intro opts reg roomId method args hsw hids
    have hfind : ((opts.actions.bind ActionsOptions.room).getD []).find?
        (fun a => a.id == strDrop method ("customAction:".length)) = none := by
      rw [List.find?_eq_none]
      intro a ha
      simpa using hids a ha
    unfold roomCallTry
    rw [if_neg (fun hc => by rw [hc.1] at hsw; exact absurd hsw (by decide)),
      if_neg (fun hc => by rw [hc.1] at hsw; exact absurd hsw (by decide)),
      if_pos hsw]
    simp only [hfind]
  · intro opts reg roomId method args hsw hids
    have hnotCA : ¬strStartsWith method "customAction:" = true := by
      intro hca
      have h₁ : "customAction:".data <+: method.data :=
        List.isPrefixOf_iff_prefix.mp hca
      have h₂ : "customClientAction:".data <+: method.data :=
        List.isPrefixOf_iff_prefix.mp hsw
      have h₃ : "customAction:".data <+: "customClientAction:".data :=
        List.prefix_of_prefix_length_le h₁ h₂ (by decide)
      exact absurd h₃ (by decide)
    have hfind : ((opts.actions.bind ActionsOptions.client).getD []).find?
        (fun a => a.id ==
          (splitOnSep ':' (strDrop method ("customClientAction:".length))).headD "") =
        none := by
      rw [List.find?_eq_none]
      intro a ha
      simpa using hids a ha
    unfold roomCallTry
    rw [if_neg (fun hc => by rw [hc.1] at hsw; exact absurd hsw (by decide)),
      if_neg (fun hc => by rw [hc.1] at hsw; exact absurd hsw (by decide)),
      if_neg hnotCA, if_pos hsw]
    simp only [hfind]

/-- C7, witness: with no configured actions, `customAction:restart` and
`customClientAction:ping:c9` are both answered 404 with no remote call. -/
theorem c7_witness :
    roomCallTry opts_empty reg_ok "r1" "customAction:restart" (.arr .nil) =
      (handleErrorResp
        ("Custom action " ++ strDrop "customAction:restart" ("customAction:".length) ++
          " not found") 404, []) ∧
    roomCallTry opts_empty reg_ok "r1" "customClientAction:ping:c9" (.arr .nil) =
      (handleErrorResp
        ("Custom client action " ++
          (splitOnSep ':' (strDrop "customClientAction:ping:c9"
            ("customClientAction:".length))).headD "" ++
          " not found") 404, []) :=
  ⟨c7_unknown_custom_action.1 opts_empty reg_ok "r1" "customAction:restart"
      (.arr .nil) (by decide) (fun a ha => absurd ha (List.not_mem_nil a)),
    c7_unknown_custom_action.2 opts_empty reg_ok "r1" "customClientAction:ping:c9"
      (.arr .nil) (by decide) (fun a ha => absurd ha (List.not_mem_nil a))⟩

/-- C8: when every room carries a numeric `clients` field, the
`connections` value of a `GET /` response is the sum of `clients` over
exactly the rooms of the returned paginated page (the accumulation runs
inside the per-page formatting loop), not over the full filtered set. -/
theorem c8_connections (allRooms : List JSVal) (opts : MonitorOptions)
    (filterObj : Option (List (String × JSVal))) (sort : Option String)
    (ord : SortOrder) (page limit : Nat) (now : Int)
    (h : ∀ r ∈ allRooms, ∃ n : Int, jsGet r "clients" = .num n) :
    (handleIndex allRooms opts filterObj sort ord page limit now).connections =
      .num (((handleIndex allRooms opts filterObj sort ord page limit now).rooms.map
        clientsInt).sum) := by
  have hwin : ∀ r ∈ ((applySorting
      (adhocFilter (applyRoomFilters allRooms opts.filter) filterObj) sort
        ord).drop ((page - 1) * limit)).take (page * limit - (page - 1) * limit),
      ∃ n : Int, jsGet r "clients" = .num n := by
    intro r hr
    exact h r (mem_applyRoomFilters (mem_adhocFilter (mem_applySorting.mp
      (List.mem_of_mem_drop (List.mem_of_mem_take hr)))))
  simp only [handleIndex]
  rw [foldl_connections _ hwin 0, List.map_map]
  have hcongr : (((applySorting
      (adhocFilter (applyRoomFilters allRooms opts.filter) filterObj) sort
        ord).drop ((page - 1) * limit)).take
          (page * limit - (page - 1) * limit)).map (clientsInt ∘ formatRoom now) =
      (((applySorting
        (adhocFilter (applyRoomFilters allRooms opts.filter) filterObj) sort
          ord).drop ((page - 1) * limit)).take
            (page * limit - (page - 1) * limit)).map clientsInt := by
    refine List.map_congr_left ?_
    intro r hr
    obtain ⟨n, hn⟩ := hwin r hr
    simp [Function.comp, clientsInt, clientsInt_formatRoom hn now, hn]
  rw [hcongr]
  congr 1
  omega

/-- C8, witness: Scenario A's query sums `clients` over the two rooms of
the first page only. -/
theorem c8_witness :
    (handleIndex [room_g1, room_g2, room_g3] opts_empty none (some "clients")
        .desc 1 2 0).connections =
      .num (((handleIndex [room_g1, room_g2, room_g3] opts_empty none
        (some "clients") .desc 1 2 0).rooms.map clientsInt).sum) :=
  c8_connections [room_g1, room_g2, room_g3] opts_empty none (some "clients")
    .desc 1 2 0
    (by
      intro r hr
      rcases List.mem_cons.mp hr with rfl | hr
      · exact ⟨2, by decide⟩
      · rcases List.mem_cons.mp hr with rfl | hr
        · exact ⟨5, by decide⟩
        · rcases List.mem_cons.mp hr with rfl | hr
          · exact ⟨1, by decide⟩
          · exact absurd hr (List.not_mem_nil r))

/-- C9, counterexample: the `GET /` formatter stringifies `maxClients`
(`data.maxClients = `${room.maxClients}``), so a room with `maxClients = 4`
is returned with the string `"4"`, not a non-negative integer — the
returned record does not match the declared `RoomSummary` shape. -/
theorem c9_counterexample :
    jsGet (formatRoom 0 (.obj fields_m)) "maxClients" = .str "4" ∧
    isNumVal (jsGet (formatRoom 0 (.obj fields_m)) "maxClients") = false := by
  decide

/-- C9, amended: a numeric `clients` value is returned unchanged (so it is a
non-negative integer whenever the registry supplies one), but `maxClients`
is returned as the decimal string rendering of the room's value, not as a
number. -/
theorem c9_amended (fs : JSFields) (now : Int) {n m : Int}
    (hc : jsGet (.obj fs) "clients" = .num n)
    (hm : jsGet (.obj fs) "maxClients" = .num m) :
    jsGet (formatRoom now (.obj fs)) "clients" = .num n ∧
    jsGet (formatRoom now (.obj fs)) "maxClients" = .str (toString m) ∧
    isNumVal (jsGet (formatRoom now (.obj fs)) "maxClients") = false := by
  refine ⟨jsGet_formatRoom_clients hc now, ?_, ?_⟩
  · rw [jsGet_formatRoom_maxClients, hm]
    rfl
  · rw [jsGet_formatRoom_maxClients, hm]
    rfl

/-- C9, witness: the amended statement at the complete room record. -/
theorem c9_witness :
    jsGet (formatRoom 0 (.obj fields_m)) "clients" = .num 2 ∧
    jsGet (formatRoom 0 (.obj fields_m)) "maxClients" = .str (toString (4 : Int)) ∧
    isNumVal (jsGet (formatRoom 0 (.obj fields_m)) "maxClients") = false :=
  c9_amended fields_m 0 (by decide) (by decide)

/-- C10: the access guard is fail-open.  `GET /room` inspection and the two
guarded `GET /room/call` operations are answered 403 with no dispatch
exactly when the corresponding `AccessControlOptions` flag is explicitly
`false`; when the access object or the flag is absent (and a fortiori when
the flag is `true`), the operation is dispatched as one remote call and the
response is never 403. -/
theorem c10_fail_open (opts : MonitorOptions) (reg : RegistryFn)
    (roomId : String) (args : JSVal) :
    (opts.access.bind AccessControlOptions.allowStateInspection ≠ some false →
      (roomEndpoint opts reg roomId).2 = [⟨roomId, "getInspectData", none⟩] ∧
      (roomEndpoint opts reg roomId).1.status ≠ 403) ∧
    (opts.access.bind AccessControlOptions.allowStateInspection = some false →
      roomEndpoint opts reg roomId =
        (handleErrorResp "State inspection is not allowed" 403, [])) ∧
    (opts.access.bind AccessControlOptions.allowRoomDisposal ≠ some false →
      (roomCallTry opts reg roomId "disconnect" args).2 =
        [⟨roomId, "disconnect", some args⟩] ∧
      (roomCallTry opts reg roomId "disconnect" args).1.status ≠ 403) ∧
    (opts.access.bind AccessControlOptions.allowRoomDisposal = some false →
      roomCallTry opts reg roomId "disconnect" args =
        (handleErrorResp "Room disposal is not allowed" 403, [])) ∧
    (opts.access.bind AccessControlOptions.allowClientMessages ≠ some false →
      (roomCallTry opts reg roomId "_sendMessageToClient" args).2 =
        [⟨roomId, "_sendMessageToClient", some args⟩] ∧
      (roomCallTry opts reg roomId "_sendMessageToClient" args).1.status ≠ 403) ∧
    (opts.access.bind AccessControlOptions.allowClientMessages = some false →
      roomCallTry opts reg roomId "_sendMessageToClient" args =
        (handleErrorResp "Sending client messages is not allowed" 403, [])) := by
  refine ⟨?_, ?_, ?_, ?_, ?_, ?_⟩
  · intro h
    unfold roomEndpoint
    rw [if_neg h]
    cases hreg : reg roomId "getInspectData" none with
    | ok data => simp [hreg]
    | error e => simp [hreg, handleErrorResp]
  · intro h
    unfold roomEndpoint
    rw [if_pos h]
  · intro h
    unfold roomCallTry
    rw [if_neg (fun hc => h hc.2),
      if_neg (fun hc => absurd hc.1 (by decide)),
      if_neg (by decide : ¬strStartsWith "disconnect" "customAction:" = true),
      if_neg (by decide : ¬strStartsWith "disconnect" "customClientAction:" = true)]
    cases hreg : reg roomId "disconnect" (some args) with
    | ok data => simp [hreg]
    | error e => simp [hreg, handleErrorResp]
  · intro h
    unfold roomCallTry
    rw [if_pos ⟨rfl, h⟩]
  · intro h
    unfold roomCallTry
    rw [if_neg (fun hc => absurd hc.1 (by decide)),
      if_neg (fun hc => h hc.2),
      if_neg (by decide :
        ¬strStartsWith "_sendMessageToClient" "customAction:" = true),
      if_neg (by decide :
        ¬strStartsWith "_sendMessageToClient" "customClientAction:" = true)]
    cases hreg : reg roomId "_sendMessageToClient" (some args) with
    | ok data => simp [hreg]
    | error e => simp [hreg, handleErrorResp]
  · intro h
    unfold roomCallTry
    rw [if_neg (fun hc => absurd hc.1 (by decide)), if_pos ⟨rfl, h⟩]

/-- C10, witness: with no access object configured, `disconnect` is
dispatched; with `allowRoomDisposal := false` it is answered 403 with no
dispatch. -/
theorem c10_witness :
    ((roomCallTry opts_empty reg_ok "r1" "disconnect" (.arr .nil)).2 =
        [⟨"r1", "disconnect", some (.arr .nil)⟩] ∧
      (roomCallTry opts_empty reg_ok "r1" "disconnect" (.arr .nil)).1.status ≠ 403) ∧
    roomCallTry opts_noDisposal reg_ok "r1" "disconnect" (.arr .nil) =
      (handleErrorResp "Room disposal is not allowed" 403, []) :=
  ⟨(c10_fail_open opts_empty reg_ok "r1" (.arr .nil)).2.2.1 (by decide),
    (c10_fail_open opts_noDisposal reg_ok "r1" (.arr .nil)).2.2.2.1 (by decide)⟩
